import Mathlib

/-!
# Verification of the `pg_binary_encoder.c` binary encoder subsystem

Shallow embedding of the binary encoders from `src/ext/pg_binary_encoder.c`:
Boolean, Int2, Int4, Int8, Timestamp and the composite FromBase64 encoder,
together with the two-call (sizing/writing) encode protocol they implement.

Bytes are modelled as natural numbers below 256, buffers as `List Nat`.
Machine integers are modelled as `Int` with explicit reduction modulo `2^w`
where the C code performs a conversion to a fixed-width type.  Fallible
operations return `Except EncError`.

Helper functions that live in this repository but outside `src/`
(`pg_util.h`/`pg_util.c`: `write_nbo16/32/64`, `base64_decode`,
`BASE64_DECODED_SIZE`; `pg_coder.c`: `pg_coder_enc_to_s`, `pg_obj_to_i`;
and the parameter-encoding driver) are modelled from the specification, as
marked in their doc comments.  Ruby C API conversion macros (`NUM2INT`,
`NUM2LONG`, `NUM2LL`) are external collaborators modelled by their
documented semantics on an LP64 platform (`int` 32-bit, `long` and
`long long` 64-bit).
-/

/-- Errors an encode operation can raise: Ruby `TypeError` (wrong value
shape), `RangeError` (integer out of the conversion type's range), and a
base64 decode failure. -/
inductive EncError where
  | typeMismatch : EncError
  | rangeError : EncError
  | decodeError : EncError
deriving DecidableEq, Repr

/-- A Ruby `Time` value as the encoder sees it: `sec`/`nsec` are the
instant in seconds and sub-second nanoseconds relative to the natural
(1970) epoch, UTC-based and unchanged by representation conversions;
`off` is the UTC offset (seconds) of the current representation, the
value `Time#utc_offset` returns. -/
structure RTime where
  sec : Int
  nsec : Nat
  off : Int
deriving DecidableEq, Repr

/-- The host-language input values the encoders accept: booleans,
integers, timestamps, byte strings, and nil (also used for an
uninitialized intermediate slot). -/
inductive RValue where
  | vBool : Bool → RValue
  | vInt : Int → RValue
  | vTime : RTime → RValue
  | vStr : List Nat → RValue
  | vNil : RValue
deriving DecidableEq, Repr

/-- `Time#getlocal`: convert a time to the local-zone representation whose
UTC offset is `localOff`; the instant itself is unchanged. -/
def getlocal (localOff : Int) (t : RTime) : RTime :=
  { sec := t.sec, nsec := t.nsec, off := localOff }

/-- `rb_time_timespec`: the instant of a time value as (seconds,
nanoseconds) relative to the natural epoch, independent of the
representation's UTC offset. -/
def rb_time_timespec (t : RTime) : Int × Nat :=
  (t.sec, t.nsec)

/-- Ruby C API macro `NUM2INT`: checked conversion of an integer value to
the C `int` type (32-bit); raises `RangeError` outside
`[-2^31, 2^31 - 1]` and `TypeError` on non-integers. -/
def NUM2INT (v : RValue) : Except EncError Int :=
  match v with
  | RValue.vInt i =>
      if -(2 ^ 31) ≤ i ∧ i < 2 ^ 31 then Except.ok i else Except.error EncError.rangeError
  | _ => Except.error EncError.typeMismatch

/-- Ruby C API macro `NUM2LONG`: checked conversion to the C `long` type
(64-bit on the LP64 platform model). -/
def NUM2LONG (v : RValue) : Except EncError Int :=
  match v with
  | RValue.vInt i =>
      if -(2 ^ 63) ≤ i ∧ i < 2 ^ 63 then Except.ok i else Except.error EncError.rangeError
  | _ => Except.error EncError.typeMismatch

/-- Ruby C API macro `NUM2LL`: checked conversion to the C `long long`
type (64-bit). -/
def NUM2LL (v : RValue) : Except EncError Int :=
  match v with
  | RValue.vInt i =>
      if -(2 ^ 63) ≤ i ∧ i < 2 ^ 63 then Except.ok i else Except.error EncError.rangeError
  | _ => Except.error EncError.typeMismatch

/-- Modelled from the spec: byte-order utility `write_nbo16` (§4.4, in
`pg_util.h`, not under `src/`): write a 16-bit integer big-endian into a
2-byte region.  The reduction modulo `2^16` models the C conversion of
the argument to the 16-bit parameter type (two's complement). -/
def write_nbo16 (l : Int) : List Nat :=
  let n := (l % 65536).toNat
  [n / 256, n % 256]

/-- Modelled from the spec: byte-order utility `write_nbo32` (§4.4):
write a 32-bit integer big-endian into a 4-byte region. -/
def write_nbo32 (l : Int) : List Nat :=
  let n := (l % 4294967296).toNat
  [n / 16777216 % 256, n / 65536 % 256, n / 256 % 256, n % 256]

/-- Modelled from the spec: byte-order utility `write_nbo64` (§4.4):
write a 64-bit integer big-endian into an 8-byte region. -/
def write_nbo64 (l : Int) : List Nat :=
  let n := (l % 18446744073709551616).toNat
  [n / 72057594037927936 % 256, n / 281474976710656 % 256,
   n / 1099511627776 % 256, n / 4294967296 % 256,
   n / 16777216 % 256, n / 65536 % 256, n / 256 % 256, n % 256]

/-- The base64 alphabet, by six-bit value: ASCII code of the character for
a six-bit group. -/
def b64chr (n : Nat) : Nat :=
  if n < 26 then n + 65
  else if n < 52 then n + 71
  else if n < 62 then n - 4
  else if n = 62 then 43
  else 47

/-- The base64 alphabet, inverse direction: six-bit value of an ASCII
code, with the sentinel 64 for characters outside the alphabet
(including `=`, ASCII 61, the padding character). -/
def b64valN (c : Nat) : Nat :=
  if 65 ≤ c ∧ c ≤ 90 then c - 65
  else if 97 ≤ c ∧ c ≤ 122 then c - 71
  else if 48 ≤ c ∧ c ≤ 57 then c + 4
  else if c = 43 then 62
  else if c = 47 then 63
  else 64

/-- Standard base64 encoding of a byte string: 3-byte groups become 4
characters; a trailing 1-byte group becomes 2 characters plus `==`, a
trailing 2-byte group 3 characters plus `=`. -/
def base64_encode : List Nat → List Nat
  | [] => []
  | [a] => [b64chr (a / 4), b64chr (a % 4 * 16), 61, 61]
  | [a, b] => [b64chr (a / 4), b64chr (a % 4 * 16 + b / 16), b64chr (b % 16 * 4), 61]
  | a :: b :: c :: rest =>
      b64chr (a / 4) :: b64chr (a % 4 * 16 + b / 16) ::
      b64chr (b % 16 * 4 + c / 64) :: b64chr (c % 64) :: base64_encode rest

/-- Modelled from the spec: `base64_decode` (§4.3, §8; in `pg_util.c`,
not under `src/`): standard base64 decoding, 4 characters at a time, with
`=` padding allowed only at the very end; invalid characters or malformed
padding are a decode failure. -/
def base64_decode : List Nat → Except EncError (List Nat)
  | [] => Except.ok []
  | c0 :: c1 :: c2 :: c3 :: rest =>
      if b64valN c0 < 64 ∧ b64valN c1 < 64 then
        if c2 = 61 then
          if c3 = 61 ∧ rest = [] then Except.ok [b64valN c0 * 4 + b64valN c1 / 16]
          else Except.error EncError.decodeError
        else if b64valN c2 < 64 then
          if c3 = 61 then
            if rest = [] then
              Except.ok [b64valN c0 * 4 + b64valN c1 / 16,
                b64valN c1 % 16 * 16 + b64valN c2 / 4]
            else Except.error EncError.decodeError
          else if b64valN c3 < 64 then
            (base64_decode rest).map
              (fun tail => (b64valN c0 * 4 + b64valN c1 / 16) ::
                (b64valN c1 % 16 * 16 + b64valN c2 / 4) ::
                (b64valN c2 % 4 * 64 + b64valN c3) :: tail)
          else Except.error EncError.decodeError
        else Except.error EncError.decodeError
      else Except.error EncError.decodeError
  | _ => Except.error EncError.decodeError

/-- Modelled from the spec: the `BASE64_DECODED_SIZE` macro (§4.3, in
`pg_util.h`): the decoded binary length computed from the base64 text
length alone, by the standard size formula `⌊L × 3 / 4⌋`. -/
def BASE64_DECODED_SIZE (l : Nat) : Nat := l * 3 / 4

/-- The shape of an encode function (`t_pg_coder_enc_func`): given the
value, whether an output region is present (the writing call) or not (the
sizing call), and the intermediate slot, return the reported byte length,
the bytes written into the output region (empty on the sizing call), and
the new contents of the intermediate slot. -/
abbrev EncFunc := RValue → Bool → RValue → Except EncError (Int × List Nat × RValue)

/-- Modelled from the spec: `pg_obj_to_i` (in `pg_coder.c`, not under
`src/`): the generic integer conversion applied by the sizing call of the
integer encoders; an integer passes through, anything that is not
integer-convertible is a type error. -/
def pg_obj_to_i (value : RValue) : Except EncError RValue :=
  match value with
  | RValue.vInt i => Except.ok (RValue.vInt i)
  | _ => Except.error EncError.typeMismatch

/-- Modelled from the spec: `pg_coder_enc_to_s` (in `pg_coder.c`, not
under `src/`): the generic string pass-through encode function.  Per
§4.1 it stores the complete payload string into the intermediate slot and
returns the length-unknown sentinel `-1`, identically in the sizing and
the writing call; only string values are modelled. -/
def pg_coder_enc_to_s (value : RValue) (_out : Bool) (_intermediate : RValue) :
    Except EncError (Int × List Nat × RValue) :=
  match value with
  | RValue.vStr s => Except.ok (-1, [], RValue.vStr s)
  | _ => Except.error EncError.typeMismatch

/-- `pg_bin_enc_boolean` (src/ext/pg_binary_encoder.c:24-37): true maps
to byte 1, false to byte 0, anything else raises a type error; the
returned length is always 1. -/
def pg_bin_enc_boolean (value : RValue) (out : Bool) (intermediate : RValue) :
    Except EncError (Int × List Nat × RValue) :=
  match value with
  | RValue.vBool true => Except.ok (1, if out then [1] else [], intermediate)
  | RValue.vBool false => Except.ok (1, if out then [0] else [], intermediate)
  | _ => Except.error EncError.typeMismatch

/-- `pg_bin_enc_int2` (src/ext/pg_binary_encoder.c:47-56): the sizing
call stores `pg_obj_to_i value` into the intermediate; the writing call
converts the intermediate with `NUM2INT` and writes it with
`write_nbo16`; both return 2. -/
def pg_bin_enc_int2 (value : RValue) (out : Bool) (intermediate : RValue) :
    Except EncError (Int × List Nat × RValue) :=
  if out then do
    let i ← NUM2INT intermediate
    Except.ok (2, write_nbo16 i, intermediate)
  else do
    let inter ← pg_obj_to_i value
    Except.ok (2, [], inter)

/-- `pg_bin_enc_int4` (src/ext/pg_binary_encoder.c:66-75): as Int2 with
`NUM2LONG` and `write_nbo32`; both calls return 4. -/
def pg_bin_enc_int4 (value : RValue) (out : Bool) (intermediate : RValue) :
    Except EncError (Int × List Nat × RValue) :=
  if out then do
    let i ← NUM2LONG intermediate
    Except.ok (4, write_nbo32 i, intermediate)
  else do
    let inter ← pg_obj_to_i value
    Except.ok (4, [], inter)

/-- `pg_bin_enc_int8` (src/ext/pg_binary_encoder.c:85-94): as Int2 with
`NUM2LL` and `write_nbo64`; both calls return 8. -/
def pg_bin_enc_int8 (value : RValue) (out : Bool) (intermediate : RValue) :
    Except EncError (Int × List Nat × RValue) :=
  if out then do
    let i ← NUM2LL intermediate
    Except.ok (8, write_nbo64 i, intermediate)
  else do
    let inter ← pg_obj_to_i value
    Except.ok (8, [], inter)

/-- `pg_bin_enc_timestamp` (src/ext/pg_binary_encoder.c:112-148).
`db_local` models `this->flags & PG_CODER_TIMESTAMP_DB_LOCAL`;
`local_off` models the process's local zone offset consulted by
`Time#getlocal`.  String values are routed to `pg_coder_enc_to_s` in both
calls; otherwise the sizing call stores the (possibly localized) time
value in the intermediate, and the writing call computes
`(sec - 10957*24*3600) * 1000000 + nsec / 1000`, adds
`utc_offset * 1000000` in local mode, and writes it with `write_nbo64`;
both calls return 8. -/
def pg_bin_enc_timestamp (db_local : Bool) (local_off : Int) (value : RValue) (out : Bool)
    (intermediate : RValue) : Except EncError (Int × List Nat × RValue) :=
  if out then
    match intermediate with
    | RValue.vStr _ => pg_coder_enc_to_s value out intermediate
    | RValue.vTime t =>
        let timestamp := (t.sec - 10957 * 24 * 3600) * 1000000 + (t.nsec : Int) / 1000
        let timestamp := if db_local then timestamp + t.off * 1000000 else timestamp
        Except.ok (8, write_nbo64 timestamp, intermediate)
    | _ => Except.error EncError.typeMismatch
  else
    match value with
    | RValue.vStr _ => pg_coder_enc_to_s value out intermediate
    | RValue.vTime t =>
        if db_local then Except.ok (8, [], RValue.vTime (getlocal local_off t))
        else Except.ok (8, [], RValue.vTime t)
    | _ => Except.error EncError.typeMismatch

/-- `pg_bin_enc_from_base64` (src/ext/pg_binary_encoder.c:157-193),
parametric in the element encode function (`pg_coder_enc_func(this->elem)`).
The sizing call invokes the element's sizing call: on a known length it
keeps the element's intermediate and returns `BASE64_DECODED_SIZE` of
that length; on the sentinel it decodes the element's intermediate string
immediately, stores the decoded bytes as the new intermediate and returns
`-1`.  The writing call invokes the element's writing call and decodes
the produced base64 text in place. -/
def pg_bin_enc_from_base64 (enc_func : EncFunc) (value : RValue) (out : Bool)
    (intermediate : RValue) : Except EncError (Int × List Nat × RValue) :=
  if out then do
    let (_, written, inter) ← enc_func value true intermediate
    let decoded ← base64_decode written
    Except.ok ((decoded.length : Int), decoded, inter)
  else do
    let (strlen, _, subint) ← enc_func value false RValue.vNil
    if strlen = -1 then
      match subint with
      | RValue.vStr s => do
          let decoded ← base64_decode s
          Except.ok (-1, [], RValue.vStr decoded)
      | _ => Except.error EncError.typeMismatch
    else
      Except.ok ((BASE64_DECODED_SIZE strlen.toNat : Int), [], subint)

/-- An element encoder with a fixed output: the sizing call reports the
output's length (a known, non-sentinel length) and the writing call
writes exactly those bytes.  Used to exercise the known-length outcome of
the composite encoder's contract. -/
def fixedOutputEnc (s : List Nat) : EncFunc :=
  fun _ out inter => Except.ok ((s.length : Int), if out then s else [], inter)

/-- Modelled from the spec: the parameter-encoding driver's two-call
protocol for one value (§4.1, §6; in `pg_type_map_*.c`/`pgconn.c`, not
under `src/`): run the sizing call with no output region; if it returns
the length-unknown sentinel `-1`, the intermediate itself is the complete
payload; otherwise run the writing call on the stored intermediate and
take the bytes it wrote. -/
def runEncode (enc : EncFunc) (value : RValue) : Except EncError (List Nat) := do
  let (len, _, inter) ← enc value false RValue.vNil
  if len = -1 then
    match inter with
    | RValue.vStr s => Except.ok s
    | _ => Except.error EncError.typeMismatch
  else do
    let (_, bytes, _) ← enc value true inter
    Except.ok bytes

/-- The length reported by the sizing call of an encoder on a value. -/
def sizingLen (enc : EncFunc) (value : RValue) : Except EncError Int :=
  (enc value false RValue.vNil).map (fun r => r.1)

/-- The result of the writing call as the driver performs it: run the
sizing call, then the writing call on the stored intermediate; return the
reported length together with the bytes written. -/
def writingRun (enc : EncFunc) (value : RValue) : Except EncError (Int × List Nat) := do
  let (_, _, inter) ← enc value false RValue.vNil
  let (len, bytes, _) ← enc value true inter
  Except.ok (len, bytes)

/-! ## Base64 lemmas -/

/-- The alphabet lookup inverts the alphabet map on six-bit values. -/
theorem b64valN_b64chr : ∀ n, n < 64 → b64valN (b64chr n) = n := by decide

/-- No alphabet character is the padding character `=` (ASCII 61). -/
theorem b64chr_ne_61 : ∀ n, n < 64 → b64chr n ≠ 61 := by decide

/-- Round trip: decoding the standard base64 encoding of a byte string
yields the byte string back. -/
theorem base64_decode_encode : ∀ (D : List Nat), (∀ b ∈ D, b < 256) →
    base64_decode (base64_encode D) = Except.ok D
  | [], _ => rfl
  | [a], h => by
      have ha : a < 256 := h a (by simp)
      have e1 : a / 4 * 4 + a % 4 * 16 / 16 = a := by omega
      have hval : a / 4 < 64 ∧ a % 4 * 16 < 64 := ⟨by omega, by omega⟩
      simp only [base64_encode, base64_decode,
        b64valN_b64chr (a / 4) (by omega), b64valN_b64chr (a % 4 * 16) (by omega)]
      rw [if_pos hval]
      simp only [if_true, and_self]
      rw [e1]
  | [a, b], h => by
      have ha : a < 256 := h a (by simp)
      have hb : b < 256 := h b (by simp)
      have n3 : b64chr (b % 16 * 4) ≠ 61 := b64chr_ne_61 _ (by omega)
      have e1 : a / 4 * 4 + (a % 4 * 16 + b / 16) / 16 = a := by omega
      have e2 : (a % 4 * 16 + b / 16) % 16 * 16 + b % 16 * 4 / 4 = b := by omega
      have hval : a / 4 < 64 ∧ a % 4 * 16 + b / 16 < 64 := ⟨by omega, by omega⟩
      have hval2 : b % 16 * 4 < 64 := by omega
      simp only [base64_encode, base64_decode,
        b64valN_b64chr (a / 4) (by omega), b64valN_b64chr (a % 4 * 16 + b / 16) (by omega),
        b64valN_b64chr (b % 16 * 4) (by omega)]
      rw [if_pos hval, if_neg n3, if_pos hval2]
      simp only [if_true]
      rw [e1, e2]
  | a :: b :: c :: rest, h => by
      have ha : a < 256 := h a (by simp)
      have hb : b < 256 := h b (by simp)
      have hc : c < 256 := h c (by simp)
      have hrest : ∀ x ∈ rest, x < 256 := fun x hx => h x (by simp [hx])
      have ih := base64_decode_encode rest hrest
      have n3 : b64chr (b % 16 * 4 + c / 64) ≠ 61 := b64chr_ne_61 _ (by omega)
      have n4 : b64chr (c % 64) ≠ 61 := b64chr_ne_61 _ (by omega)
      have e1 : a / 4 * 4 + (a % 4 * 16 + b / 16) / 16 = a := by omega
      have e2 : (a % 4 * 16 + b / 16) % 16 * 16 + (b % 16 * 4 + c / 64) / 4 = b := by omega
      have e3 : (b % 16 * 4 + c / 64) % 4 * 64 + c % 64 = c := by omega
      have hval : a / 4 < 64 ∧ a % 4 * 16 + b / 16 < 64 := ⟨by omega, by omega⟩
      have hval2 : b % 16 * 4 + c / 64 < 64 := by omega
      have hval3 : c % 64 < 64 := by omega
      simp only [base64_encode, base64_decode,
        b64valN_b64chr (a / 4) (by omega), b64valN_b64chr (a % 4 * 16 + b / 16) (by omega),
        b64valN_b64chr (b % 16 * 4 + c / 64) (by omega), b64valN_b64chr (c % 64) (by omega)]
      rw [if_pos hval, if_neg n3, if_pos hval2, if_neg n4, if_pos hval3, ih]
      simp only [Except.map]
      rw [e1, e2, e3]

/-- A successful base64 decode consumes 4 characters for at most 3 output
bytes: the decoded length never exceeds 3/4 of the text length. -/
theorem base64_decode_length_le : ∀ (s d : List Nat), base64_decode s = Except.ok d →
    d.length * 4 ≤ s.length * 3
  | [], d, h => by
      simp only [base64_decode, Except.ok.injEq] at h
      subst h; simp
  | [_], _, h | [_, _], _, h | [_, _, _], _, h => by
      simp [base64_decode] at h
  | c0 :: c1 :: c2 :: c3 :: rest, d, h => by
      simp only [base64_decode] at h
      split at h
      · split at h
        · split at h
          · cases h; simp; omega
          · simp at h
        · split at h
          · split at h
            · split at h
              · cases h; simp; omega
              · simp at h
            · split at h
              · cases hrec : base64_decode rest with
                | error e => rw [hrec] at h; simp [Except.map] at h
                | ok tail =>
                    rw [hrec] at h
                    simp only [Except.map] at h
                    cases h
                    have ih := base64_decode_length_le rest tail hrec
                    simp only [List.length_cons]
                    omega
              · simp at h
          · simp at h
      · simp at h

/-- On padding-free base64 text a successful decode yields exactly 3
bytes per 4 characters. -/
theorem base64_decode_length_eq : ∀ (s d : List Nat), base64_decode s = Except.ok d →
    ¬ 61 ∈ s → d.length * 4 = s.length * 3
  | [], d, h, _ => by
      simp only [base64_decode, Except.ok.injEq] at h
      subst h; simp
  | [_], _, h, _ | [_, _], _, h, _ | [_, _, _], _, h, _ => by
      simp [base64_decode] at h
  | c0 :: c1 :: c2 :: c3 :: rest, d, h, hmem => by
      have hc2 : c2 ≠ 61 := fun e => hmem (by simp [e])
      have hc3 : c3 ≠ 61 := fun e => hmem (by simp [e])
      have hrest : ¬ 61 ∈ rest := fun e => hmem (by simp [e])
      simp only [base64_decode] at h
      split at h
      · split at h
        · split at h
          · cases hrec : base64_decode rest with
            | error e => rw [hrec] at h; simp [Except.map] at h
            | ok tail =>
                rw [hrec] at h
                simp only [Except.map] at h
                cases h
                have ih := base64_decode_length_eq rest tail hrec hrest
                simp only [List.length_cons]
                omega
          · simp at h
        · simp at h
      · simp at h

/-! ## Helper lemmas for the encoder theorems -/

/-- Reduction of `Except` bind on a success value. -/
theorem except_bind_ok {ε α β : Type} (x : α) (f : α → Except ε β) :
    (Except.ok x : Except ε α) >>= f = f x := rfl

/-- Reduction of `Except` bind on an error value. -/
theorem except_bind_error {ε α β : Type} (e : ε) (f : α → Except ε β) :
    (Except.error e : Except ε α) >>= f = Except.error e := rfl

/-- The numeric value of a byte list read in big-endian order. -/
def beVal (l : List Nat) : Nat := l.foldl (fun acc b => acc * 256 + b) 0

/-- The 2 bytes written by `write_nbo16`, read back big-endian, are the
argument reduced modulo `2^16` (its 16-bit two's complement). -/
theorem beVal_write_nbo16 (l : Int) : (beVal (write_nbo16 l) : Int) = l % 65536 := by
  have h0 : 0 ≤ l % 65536 := Int.emod_nonneg l (by decide)
  have h1 : l % 65536 < 65536 := Int.emod_lt_of_pos l (by decide)
  simp only [beVal, write_nbo16, List.foldl]
  omega

/-- The 4 bytes written by `write_nbo32`, read back big-endian, are the
argument reduced modulo `2^32`. -/
theorem beVal_write_nbo32 (l : Int) : (beVal (write_nbo32 l) : Int) = l % 4294967296 := by
  have h0 : 0 ≤ l % 4294967296 := Int.emod_nonneg l (by decide)
  have h1 : l % 4294967296 < 4294967296 := Int.emod_lt_of_pos l (by decide)
  simp only [beVal, write_nbo32, List.foldl]
  omega

/-- The 8 bytes written by `write_nbo64`, read back big-endian, are the
argument reduced modulo `2^64`. -/
theorem beVal_write_nbo64 (l : Int) :
    (beVal (write_nbo64 l) : Int) = l % 18446744073709551616 := by
  have h0 : 0 ≤ l % 18446744073709551616 := Int.emod_nonneg l (by decide)
  have h1 : l % 18446744073709551616 < 18446744073709551616 :=
    Int.emod_lt_of_pos l (by decide)
  simp only [beVal, write_nbo64, List.foldl]
  omega

/-! ## Claim theorems -/

/-- C7: The Boolean encoder maps true to the single byte 1 and false to
the single byte 0, with both the sizing call and the writing call
returning length 1; every value that is neither true nor false raises a
type mismatch and no bytes are written. -/
theorem c7_boolean_encoder :
    runEncode pg_bin_enc_boolean (RValue.vBool true) = Except.ok [1]
    ∧ runEncode pg_bin_enc_boolean (RValue.vBool false) = Except.ok [0]
    ∧ (∀ b : Bool, sizingLen pg_bin_enc_boolean (RValue.vBool b) = Except.ok 1
        ∧ writingRun pg_bin_enc_boolean (RValue.vBool b) =
            Except.ok (1, [if b then 1 else 0]))
    ∧ (∀ (v : RValue) (out : Bool) (inter : RValue), (∀ b : Bool, v ≠ RValue.vBool b) →
        pg_bin_enc_boolean v out inter = Except.error EncError.typeMismatch) := by
  refine ⟨rfl, rfl, ?_, ?_⟩
  · intro b; cases b <;> exact ⟨rfl, rfl⟩
  · intro v out inter hv
    cases v with
    | vBool b => exact absurd rfl (hv b)
    | vInt i => rfl
    | vTime t => rfl
    | vStr s => rfl
    | vNil => rfl

/-- C7 witness: a non-boolean input (nil) raises the type mismatch. -/
theorem c7_boolean_encoder_witness :
    pg_bin_enc_boolean RValue.vNil false RValue.vNil = Except.error EncError.typeMismatch :=
  c7_boolean_encoder.2.2.2 RValue.vNil false RValue.vNil (fun _ h => RValue.noConfusion h)

/-- C8: Int2, Int4 and Int8 write the coerced integer as 2-, 4- and
8-byte signed big-endian two's complement: for in-range inputs the bytes
read back big-endian equal the value modulo `2^w`, both calls return the
width, encode(0) gives all-zero bytes and encode(-1) all-0xFF bytes. -/
theorem c8_int_encoders_big_endian :
    (∀ i : Int, -(2 ^ 15) ≤ i → i < 2 ^ 15 →
        sizingLen pg_bin_enc_int2 (RValue.vInt i) = Except.ok 2
        ∧ writingRun pg_bin_enc_int2 (RValue.vInt i) = Except.ok (2, write_nbo16 i)
        ∧ runEncode pg_bin_enc_int2 (RValue.vInt i) = Except.ok (write_nbo16 i)
        ∧ (write_nbo16 i).length = 2
        ∧ (beVal (write_nbo16 i) : Int) = i % 2 ^ 16)
    ∧ (∀ i : Int, -(2 ^ 31) ≤ i → i < 2 ^ 31 →
        sizingLen pg_bin_enc_int4 (RValue.vInt i) = Except.ok 4
        ∧ writingRun pg_bin_enc_int4 (RValue.vInt i) = Except.ok (4, write_nbo32 i)
        ∧ runEncode pg_bin_enc_int4 (RValue.vInt i) = Except.ok (write_nbo32 i)
        ∧ (write_nbo32 i).length = 4
        ∧ (beVal (write_nbo32 i) : Int) = i % 2 ^ 32)
    ∧ (∀ i : Int, -(2 ^ 63) ≤ i → i < 2 ^ 63 →
        sizingLen pg_bin_enc_int8 (RValue.vInt i) = Except.ok 8
        ∧ writingRun pg_bin_enc_int8 (RValue.vInt i) = Except.ok (8, write_nbo64 i)
        ∧ runEncode pg_bin_enc_int8 (RValue.vInt i) = Except.ok (write_nbo64 i)
        ∧ (write_nbo64 i).length = 8
        ∧ (beVal (write_nbo64 i) : Int) = i % 2 ^ 64)
    ∧ runEncode pg_bin_enc_int2 (RValue.vInt 0) = Except.ok [0, 0]
    ∧ runEncode pg_bin_enc_int4 (RValue.vInt 0) = Except.ok [0, 0, 0, 0]
    ∧ runEncode pg_bin_enc_int8 (RValue.vInt 0) = Except.ok [0, 0, 0, 0, 0, 0, 0, 0]
    ∧ runEncode pg_bin_enc_int2 (RValue.vInt (-1)) = Except.ok [255, 255]
    ∧ runEncode pg_bin_enc_int4 (RValue.vInt (-1)) = Except.ok [255, 255, 255, 255]
    ∧ runEncode pg_bin_enc_int8 (RValue.vInt (-1)) =
        Except.ok [255, 255, 255, 255, 255, 255, 255, 255] := by
  refine ⟨?_, ?_, ?_, rfl, rfl, rfl, rfl, rfl, rfl⟩
  · intro i h1 h2
    have g1 : (-2147483648 : Int) ≤ i := by omega
    have g2 : i < 2147483648 := by omega
    refine ⟨rfl, ?_, ?_, rfl, ?_⟩
    · simp [writingRun, pg_bin_enc_int2, pg_obj_to_i, NUM2INT, except_bind_ok, g1, g2]
    · simp [runEncode, pg_bin_enc_int2, pg_obj_to_i, NUM2INT, except_bind_ok, g1, g2]
    · simpa using beVal_write_nbo16 i
  · intro i h1 h2
    have g1 : (-9223372036854775808 : Int) ≤ i := by omega
    have g2 : i < 9223372036854775808 := by omega
    refine ⟨rfl, ?_, ?_, rfl, ?_⟩
    · simp [writingRun, pg_bin_enc_int4, pg_obj_to_i, NUM2LONG, except_bind_ok, g1, g2]
    · simp [runEncode, pg_bin_enc_int4, pg_obj_to_i, NUM2LONG, except_bind_ok, g1, g2]
    · simpa using beVal_write_nbo32 i
  · intro i h1 h2
    have g1 : (-9223372036854775808 : Int) ≤ i := by omega
    have g2 : i < 9223372036854775808 := by omega
    refine ⟨rfl, ?_, ?_, rfl, ?_⟩
    · simp [writingRun, pg_bin_enc_int8, pg_obj_to_i, NUM2LL, except_bind_ok, g1, g2]
    · simp [runEncode, pg_bin_enc_int8, pg_obj_to_i, NUM2LL, except_bind_ok, g1, g2]
    · simpa using beVal_write_nbo64 i

/-- C8 witness: the Int2 encoder on the in-range value 300. -/
theorem c8_int_encoders_big_endian_witness :
    sizingLen pg_bin_enc_int2 (RValue.vInt 300) = Except.ok 2
    ∧ writingRun pg_bin_enc_int2 (RValue.vInt 300) = Except.ok (2, write_nbo16 300)
    ∧ runEncode pg_bin_enc_int2 (RValue.vInt 300) = Except.ok (write_nbo16 300)
    ∧ (write_nbo16 300).length = 2
    ∧ (beVal (write_nbo16 300) : Int) = 300 % 2 ^ 16 :=
  c8_int_encoders_big_endian.1 300 (by decide) (by decide)

/-- C4 counterexample: 32768 lies outside the Int2 target width
`[-2^15, 2^15 - 1]`, yet the encode operation raises no range failure:
it writes the two truncated bytes 0x80 0x00. -/
theorem c4_counterexample_int2_truncates :
    runEncode pg_bin_enc_int2 (RValue.vInt 32768) = Except.ok [128, 0]
    ∧ (2 ^ 15 : Int) ≤ 32768 := ⟨rfl, by decide⟩

/-- C4 amended: a range failure is raised (during the writing call, with
no bytes written) only when the value lies outside the range of the C
conversion type: `[-2^31, 2^31 - 1]` for Int2 and `[-2^63, 2^63 - 1]`
for Int4 and Int8.  A value outside the declared width but inside the
conversion range is written truncated to the width without any error. -/
theorem c4_amended_range_failures :
    (∀ i : Int, i < -(2 ^ 31) ∨ 2 ^ 31 ≤ i →
        runEncode pg_bin_enc_int2 (RValue.vInt i) = Except.error EncError.rangeError
        ∧ pg_bin_enc_int2 (RValue.vInt i) true (RValue.vInt i) =
            Except.error EncError.rangeError)
    ∧ (∀ i : Int, i < -(2 ^ 63) ∨ 2 ^ 63 ≤ i →
        runEncode pg_bin_enc_int4 (RValue.vInt i) = Except.error EncError.rangeError
        ∧ pg_bin_enc_int4 (RValue.vInt i) true (RValue.vInt i) =
            Except.error EncError.rangeError
        ∧ runEncode pg_bin_enc_int8 (RValue.vInt i) = Except.error EncError.rangeError
        ∧ pg_bin_enc_int8 (RValue.vInt i) true (RValue.vInt i) =
            Except.error EncError.rangeError)
    ∧ (∀ i : Int, -(2 ^ 31) ≤ i → i < 2 ^ 31 →
        runEncode pg_bin_enc_int2 (RValue.vInt i) = Except.ok (write_nbo16 i))
    ∧ (∀ i : Int, -(2 ^ 63) ≤ i → i < 2 ^ 63 →
        runEncode pg_bin_enc_int4 (RValue.vInt i) = Except.ok (write_nbo32 i)
        ∧ runEncode pg_bin_enc_int8 (RValue.vInt i) = Except.ok (write_nbo64 i)) := by
  refine ⟨?_, ?_, ?_, ?_⟩
  · intro i hi
    have hng : ¬((-2147483648 : Int) ≤ i ∧ i < 2147483648) := by omega
    constructor
    · simp [runEncode, pg_bin_enc_int2, pg_obj_to_i, NUM2INT, except_bind_ok, except_bind_error, hng]
    · simp [pg_bin_enc_int2, NUM2INT, except_bind_ok, except_bind_error, hng]
  · intro i hi
    have hng : ¬((-9223372036854775808 : Int) ≤ i ∧ i < 9223372036854775808) := by omega
    refine ⟨?_, ?_, ?_, ?_⟩
    · simp [runEncode, pg_bin_enc_int4, pg_obj_to_i, NUM2LONG, except_bind_ok, except_bind_error, hng]
    · simp [pg_bin_enc_int4, NUM2LONG, except_bind_ok, except_bind_error, hng]
    · simp [runEncode, pg_bin_enc_int8, pg_obj_to_i, NUM2LL, except_bind_ok, except_bind_error, hng]
    · simp [pg_bin_enc_int8, NUM2LL, except_bind_ok, except_bind_error, hng]
  · intro i h1 h2
    have g1 : (-2147483648 : Int) ≤ i := by omega
    have g2 : i < 2147483648 := by omega
    simp [runEncode, pg_bin_enc_int2, pg_obj_to_i, NUM2INT, except_bind_ok, g1, g2]
  · intro i h1 h2
    have g1 : (-9223372036854775808 : Int) ≤ i := by omega
    have g2 : i < 9223372036854775808 := by omega
    constructor
    · simp [runEncode, pg_bin_enc_int4, pg_obj_to_i, NUM2LONG, except_bind_ok, g1, g2]
    · simp [runEncode, pg_bin_enc_int8, pg_obj_to_i, NUM2LL, except_bind_ok, g1, g2]

/-- C4 amended witness: Int2 raises the range failure at `2^31`, and
truncates 32768 without error. -/
theorem c4_amended_range_failures_witness :
    (runEncode pg_bin_enc_int2 (RValue.vInt 2147483648) = Except.error EncError.rangeError
      ∧ pg_bin_enc_int2 (RValue.vInt 2147483648) true (RValue.vInt 2147483648) =
          Except.error EncError.rangeError)
    ∧ runEncode pg_bin_enc_int2 (RValue.vInt 32768) = Except.ok (write_nbo16 32768) :=
  ⟨c4_amended_range_failures.1 2147483648 (Or.inr (by decide)),
   c4_amended_range_failures.2.2.1 32768 (by decide) (by decide)⟩

/-- C10: For Int2, Int4 and Int8 the sizing call performs only the
generic integer conversion and never raises a range error — it returns
the fixed width 2, 4 or 8 for every integer, including out-of-range
ones; the range check happens only in the writing call, which raises
before any byte is produced. -/
theorem c10_sizing_never_range_checks :
    (∀ (i : Int) (inter : RValue),
        pg_bin_enc_int2 (RValue.vInt i) false inter = Except.ok (2, [], RValue.vInt i)
        ∧ pg_bin_enc_int4 (RValue.vInt i) false inter = Except.ok (4, [], RValue.vInt i)
        ∧ pg_bin_enc_int8 (RValue.vInt i) false inter = Except.ok (8, [], RValue.vInt i))
    ∧ (∀ i : Int, i < -(2 ^ 31) ∨ 2 ^ 31 ≤ i →
        pg_bin_enc_int2 (RValue.vInt i) true (RValue.vInt i) =
          Except.error EncError.rangeError)
    ∧ (∀ i : Int, i < -(2 ^ 63) ∨ 2 ^ 63 ≤ i →
        pg_bin_enc_int4 (RValue.vInt i) true (RValue.vInt i) =
            Except.error EncError.rangeError
        ∧ pg_bin_enc_int8 (RValue.vInt i) true (RValue.vInt i) =
            Except.error EncError.rangeError) := by
  refine ⟨fun i inter => ⟨rfl, rfl, rfl⟩, ?_, ?_⟩
  · intro i hi
    have hng : ¬((-2147483648 : Int) ≤ i ∧ i < 2147483648) := by omega
    simp [pg_bin_enc_int2, NUM2INT, except_bind_ok, except_bind_error, hng]
  · intro i hi
    have hng : ¬((-9223372036854775808 : Int) ≤ i ∧ i < 9223372036854775808) := by omega
    constructor
    · simp [pg_bin_enc_int4, NUM2LONG, except_bind_ok, except_bind_error, hng]
    · simp [pg_bin_enc_int8, NUM2LL, except_bind_ok, except_bind_error, hng]

/-- C10 witness: at `2^40` (outside every declared width) the Int2
sizing call still returns width 2 with no error, and the writing call is
the one that raises. -/
theorem c10_sizing_never_range_checks_witness :
    pg_bin_enc_int2 (RValue.vInt (2 ^ 40)) false RValue.vNil =
      Except.ok (2, [], RValue.vInt (2 ^ 40))
    ∧ pg_bin_enc_int2 (RValue.vInt (2 ^ 40)) true (RValue.vInt (2 ^ 40)) =
        Except.error EncError.rangeError :=
  ⟨(c10_sizing_never_range_checks.1 (2 ^ 40) RValue.vNil).1,
   c10_sizing_never_range_checks.2.1 (2 ^ 40) (Or.inr (by decide))⟩

/-- C2: In UTC mode (the default) the Timestamp encoder maps an instant
with whole seconds `s` and sub-second nanoseconds `n` to the 8-byte
big-endian signed integer `(s - 10957*86400) * 1000000 + n / 1000`;
the instant exactly at the fixed epoch encodes to 8 zero bytes,
independent of the environment's local offset and of the instant's
representation offset. -/
theorem c2_timestamp_utc_encoding :
    (∀ (lo : Int) (t : RTime),
        runEncode (pg_bin_enc_timestamp false lo) (RValue.vTime t) =
          Except.ok (write_nbo64 ((t.sec - 10957 * 86400) * 1000000 + (t.nsec : Int) / 1000)))
    ∧ ∀ (lo off : Int),
        runEncode (pg_bin_enc_timestamp false lo)
            (RValue.vTime { sec := 10957 * 86400, nsec := 0, off := off }) =
          Except.ok [0, 0, 0, 0, 0, 0, 0, 0] := by
  constructor
  · intro lo t
    simp [runEncode, pg_bin_enc_timestamp, except_bind_ok]
  · intro lo off
    simp [runEncode, pg_bin_enc_timestamp, except_bind_ok, write_nbo64]

/-- C6: In local mode the Timestamp encoder converts the instant to its
local-offset representation during the sizing call, the writing call
adds the captured UTC offset times 1,000,000 to the UTC-mode adjusted
microseconds before writing big-endian, the writing call does not
consult the environment offset again (the sizing-call capture is what it
uses), and the instant at the fixed epoch with local offset +3600
encodes to the UTC-mode value plus `3600 * 1000000`. -/
theorem c6_timestamp_local_mode :
    (∀ (lo : Int) (t : RTime),
        pg_bin_enc_timestamp true lo (RValue.vTime t) false RValue.vNil =
          Except.ok (8, [], RValue.vTime (getlocal lo t))
        ∧ runEncode (pg_bin_enc_timestamp true lo) (RValue.vTime t) =
            Except.ok (write_nbo64 ((t.sec - 10957 * 86400) * 1000000 + (t.nsec : Int) / 1000
              + lo * 1000000)))
    ∧ (∀ (lo lo2 : Int) (v inter : RValue),
        pg_bin_enc_timestamp true lo v true inter = pg_bin_enc_timestamp true lo2 v true inter)
    ∧ ∀ off : Int,
        runEncode (pg_bin_enc_timestamp true 3600)
            (RValue.vTime { sec := 10957 * 86400, nsec := 0, off := off }) =
          Except.ok (write_nbo64 (0 + 3600 * 1000000)) := by
  refine ⟨?_, ?_, fun off => by
    simp [runEncode, pg_bin_enc_timestamp, getlocal, except_bind_ok, write_nbo64]⟩
  · intro lo t
    constructor
    · rfl
    · simp [runEncode, pg_bin_enc_timestamp, getlocal, except_bind_ok]
  · intro lo lo2 v inter
    simp [pg_bin_enc_timestamp]

/-- C9 counterexample: a 3-byte raw string input is passed through the
Timestamp encoder unchanged, so its encoded output has length 3, not 8:
string inputs are not validated to be 8 bytes. -/
theorem c9_counterexample_short_string_passthrough :
    runEncode (pg_bin_enc_timestamp false 0) (RValue.vStr [1, 2, 3]) = Except.ok [1, 2, 3]
    ∧ ([1, 2, 3] : List Nat).length ≠ 8 := ⟨rfl, by decide⟩

/-- C9 amended: every raw string input — of any length — is passed
through the Timestamp encoder unchanged via the string path, detected by
the value's shape in both the sizing and the writing call; the encoded
output equals the input string, so it is 8 bytes long exactly when the
input string is. -/
theorem c9_amended_string_passthrough :
    ∀ (dbl : Bool) (lo : Int) (s : List Nat),
      (∀ inter : RValue, pg_bin_enc_timestamp dbl lo (RValue.vStr s) false inter =
          Except.ok (-1, [], RValue.vStr s))
      ∧ (∀ inter0 : List Nat,
          pg_bin_enc_timestamp dbl lo (RValue.vStr s) true (RValue.vStr inter0) =
            Except.ok (-1, [], RValue.vStr s))
      ∧ runEncode (pg_bin_enc_timestamp dbl lo) (RValue.vStr s) = Except.ok s
      ∧ (runEncode (pg_bin_enc_timestamp dbl lo) (RValue.vStr s)).map List.length =
          Except.ok s.length :=
  fun dbl lo s => ⟨fun inter => rfl, fun inter0 => rfl, rfl, rfl⟩

/-- C5 counterexample: on the sentinel outcome the FromBase64 sizing
call does decode immediately and stores the decoded bytes (here `[0]`,
of length 1) as the new intermediate, but it returns the length-unknown
sentinel `-1`, not the decoded length 1 as the claim states. -/
theorem c5_counterexample_sentinel_return :
    pg_bin_enc_from_base64 pg_coder_enc_to_s (RValue.vStr [65, 65, 61, 61]) false RValue.vNil =
      Except.ok (-1, [], RValue.vStr [0])
    ∧ ((0 : Nat) :: []).length = 1
    ∧ (-1 : Int) ≠ 1 := ⟨rfl, rfl, by decide⟩

/-- C5 amended: when the element encoder reports the length-unknown
sentinel with its complete base64 text stored in the intermediate, the
FromBase64 sizing call decodes that text immediately and stores the
decoded bytes as the new intermediate, but returns the length-unknown
sentinel `-1`; the decoded length is conveyed as the length of the
stored intermediate, which the driver uses as the payload. -/
theorem c5_amended_sentinel_immediate_decode :
    ∀ (s d : List Nat), base64_decode s = Except.ok d →
      pg_bin_enc_from_base64 pg_coder_enc_to_s (RValue.vStr s) false RValue.vNil =
        Except.ok (-1, [], RValue.vStr d)
      ∧ runEncode (pg_bin_enc_from_base64 pg_coder_enc_to_s) (RValue.vStr s) =
          Except.ok d := by
  intro s d h
  constructor
  · simp [pg_bin_enc_from_base64, pg_coder_enc_to_s, except_bind_ok, h]
  · simp [runEncode, pg_bin_enc_from_base64, pg_coder_enc_to_s, except_bind_ok, h]

/-- C5 amended witness: the base64 text `AA==` is decoded to the single
byte 0 during the sizing call, which returns the sentinel. -/
theorem c5_amended_sentinel_immediate_decode_witness :
    pg_bin_enc_from_base64 pg_coder_enc_to_s (RValue.vStr [65, 65, 61, 61]) false RValue.vNil =
      Except.ok (-1, [], RValue.vStr [0])
    ∧ runEncode (pg_bin_enc_from_base64 pg_coder_enc_to_s) (RValue.vStr [65, 65, 61, 61]) =
        Except.ok [0] :=
  c5_amended_sentinel_immediate_decode [65, 65, 61, 61] [0] rfl

/-- C3: For every byte string `D`, running the FromBase64 encoder's
two-call protocol with an element encoder producing the base64 encoding
of `D` yields exactly `D`: through the string element encoder (the
length-unknown sentinel outcome) and through a known-length element
encoder (the known-length outcome). -/
theorem c3_base64_roundtrip :
    ∀ (D : List Nat), (∀ b ∈ D, b < 256) →
      runEncode (pg_bin_enc_from_base64 pg_coder_enc_to_s)
          (RValue.vStr (base64_encode D)) = Except.ok D
      ∧ ∀ v : RValue,
          runEncode (pg_bin_enc_from_base64 (fixedOutputEnc (base64_encode D))) v =
            Except.ok D := by
  intro D h
  constructor
  · simp [runEncode, pg_bin_enc_from_base64, pg_coder_enc_to_s, except_bind_ok,
      base64_decode_encode D h]
  · intro v
    have hne : ((base64_encode D).length : Int) ≠ -1 := by omega
    simp [runEncode, pg_bin_enc_from_base64, fixedOutputEnc, except_bind_ok, hne,
      base64_decode_encode D h]

/-- C3 witness: the 4-byte string `[1, 255, 7, 8]` (length not a
multiple of 3) round-trips through both outcomes. -/
theorem c3_base64_roundtrip_witness :
    runEncode (pg_bin_enc_from_base64 pg_coder_enc_to_s)
        (RValue.vStr (base64_encode [1, 255, 7, 8])) = Except.ok [1, 255, 7, 8]
    ∧ runEncode (pg_bin_enc_from_base64 (fixedOutputEnc (base64_encode [1, 255, 7, 8])))
        RValue.vNil = Except.ok [1, 255, 7, 8] :=
  ⟨(c3_base64_roundtrip [1, 255, 7, 8] (by decide)).1,
   (c3_base64_roundtrip [1, 255, 7, 8] (by decide)).2 RValue.vNil⟩

/-- C1 counterexample: FromBase64 wrapped around Int8, applied to the
integer whose 8 big-endian bytes are the ASCII base64 text `MTIzNDU=`.
The element reports the known length 8, so the sizing call returns
6 (computed from the length alone), but the writing call decodes the
padded text to 5 bytes and returns 5: the two lengths differ. -/
theorem c1_counterexample_from_base64_lengths :
    sizingLen (pg_bin_enc_from_base64 pg_bin_enc_int8)
        (RValue.vInt 5572159428612085053) = Except.ok 6
    ∧ writingRun (pg_bin_enc_from_base64 pg_bin_enc_int8)
        (RValue.vInt 5572159428612085053) = Except.ok (5, [49, 50, 51, 52, 53])
    ∧ (6 : Int) ≠ 5 := ⟨rfl, rfl, by decide⟩

/-- C1 amended: for Boolean, Int2/4/8 (over the conversion range) and
Timestamp the sizing length equals the writing length and the number of
bytes written; string inputs and the FromBase64 sentinel outcome follow
the sentinel path consistently, the payload being the stored
intermediate.  For FromBase64 with an element of known length `L`, the
sizing call returns `⌊L*3/4⌋` computed from `L` alone, which is only an
upper bound on the decoded length returned by the writing call; the two
agree exactly when the base64 text contains no `=` padding. -/
theorem c1_amended_two_call_length_invariant :
    (∀ b : Bool, sizingLen pg_bin_enc_boolean (RValue.vBool b) = Except.ok 1
      ∧ writingRun pg_bin_enc_boolean (RValue.vBool b) =
          Except.ok (1, [if b then 1 else 0]))
    ∧ (∀ i : Int, -(2 ^ 31) ≤ i → i < 2 ^ 31 →
        sizingLen pg_bin_enc_int2 (RValue.vInt i) = Except.ok 2
        ∧ writingRun pg_bin_enc_int2 (RValue.vInt i) = Except.ok (2, write_nbo16 i)
        ∧ (write_nbo16 i).length = 2)
    ∧ (∀ i : Int, -(2 ^ 63) ≤ i → i < 2 ^ 63 →
        sizingLen pg_bin_enc_int4 (RValue.vInt i) = Except.ok 4
        ∧ writingRun pg_bin_enc_int4 (RValue.vInt i) = Except.ok (4, write_nbo32 i)
        ∧ (write_nbo32 i).length = 4
        ∧ sizingLen pg_bin_enc_int8 (RValue.vInt i) = Except.ok 8
        ∧ writingRun pg_bin_enc_int8 (RValue.vInt i) = Except.ok (8, write_nbo64 i)
        ∧ (write_nbo64 i).length = 8)
    ∧ (∀ (dbl : Bool) (lo : Int) (t : RTime),
        sizingLen (pg_bin_enc_timestamp dbl lo) (RValue.vTime t) = Except.ok 8
        ∧ ∃ bytes : List Nat,
            writingRun (pg_bin_enc_timestamp dbl lo) (RValue.vTime t) =
              Except.ok (8, bytes)
            ∧ bytes.length = 8)
    ∧ (∀ (dbl : Bool) (lo : Int) (s : List Nat),
        sizingLen (pg_bin_enc_timestamp dbl lo) (RValue.vStr s) = Except.ok (-1)
        ∧ runEncode (pg_bin_enc_timestamp dbl lo) (RValue.vStr s) = Except.ok s)
    ∧ (∀ s d : List Nat, base64_decode s = Except.ok d →
        sizingLen (pg_bin_enc_from_base64 pg_coder_enc_to_s) (RValue.vStr s) =
          Except.ok (-1)
        ∧ runEncode (pg_bin_enc_from_base64 pg_coder_enc_to_s) (RValue.vStr s) =
            Except.ok d)
    ∧ (∀ (s d : List Nat) (v : RValue), base64_decode s = Except.ok d →
        sizingLen (pg_bin_enc_from_base64 (fixedOutputEnc s)) v =
          Except.ok (BASE64_DECODED_SIZE s.length)
        ∧ writingRun (pg_bin_enc_from_base64 (fixedOutputEnc s)) v =
            Except.ok ((d.length : Int), d)
        ∧ d.length ≤ BASE64_DECODED_SIZE s.length
        ∧ (¬ 61 ∈ s → d.length = BASE64_DECODED_SIZE s.length)) := by
  refine ⟨?_, ?_, ?_, ?_, ?_, ?_, ?_⟩
  · intro b; cases b <;> exact ⟨rfl, rfl⟩
  · intro i h1 h2
    have g1 : (-2147483648 : Int) ≤ i := by omega
    have g2 : i < 2147483648 := by omega
    refine ⟨rfl, ?_, rfl⟩
    simp [writingRun, pg_bin_enc_int2, pg_obj_to_i, NUM2INT, except_bind_ok, g1, g2]
  · intro i h1 h2
    have g1 : (-9223372036854775808 : Int) ≤ i := by omega
    have g2 : i < 9223372036854775808 := by omega
    refine ⟨rfl, ?_, rfl, rfl, ?_, rfl⟩
    · simp [writingRun, pg_bin_enc_int4, pg_obj_to_i, NUM2LONG, except_bind_ok, g1, g2]
    · simp [writingRun, pg_bin_enc_int8, pg_obj_to_i, NUM2LL, except_bind_ok, g1, g2]
  · intro dbl lo t
    cases dbl with
    | false =>
        refine ⟨rfl, write_nbo64 ((t.sec - 10957 * 24 * 3600) * 1000000 +
          (t.nsec : Int) / 1000), ?_, rfl⟩
        simp [writingRun, pg_bin_enc_timestamp, except_bind_ok]
    | true =>
        refine ⟨rfl, write_nbo64 ((t.sec - 10957 * 24 * 3600) * 1000000 +
          (t.nsec : Int) / 1000 + lo * 1000000), ?_, rfl⟩
        simp [writingRun, pg_bin_enc_timestamp, getlocal, except_bind_ok]
  · exact fun dbl lo s => ⟨rfl, rfl⟩
  · intro s d h
    constructor
    · simp [sizingLen, pg_bin_enc_from_base64, pg_coder_enc_to_s, except_bind_ok, Except.map, h]
    · simp [runEncode, pg_bin_enc_from_base64, pg_coder_enc_to_s, except_bind_ok, h]
  · intro s d v h
    have hne : ((s.length : Nat) : Int) ≠ -1 := by omega
    have hle4 : d.length * 4 ≤ s.length * 3 := base64_decode_length_le s d h
    refine ⟨?_, ?_, ?_, ?_⟩
    · simp [sizingLen, pg_bin_enc_from_base64, fixedOutputEnc, except_bind_ok, Except.map, hne]
    · simp [writingRun, pg_bin_enc_from_base64, fixedOutputEnc, except_bind_ok, hne, h]
    · simp only [BASE64_DECODED_SIZE]
      omega
    · intro hnp
      have heq : d.length * 4 = s.length * 3 := base64_decode_length_eq s d h hnp
      simp only [BASE64_DECODED_SIZE]
      omega

/-- C1 amended witness: FromBase64 over a known-length element producing
the unpadded base64 text `MTIz`: sizing and writing both give 3. -/
theorem c1_amended_two_call_length_invariant_witness :
    sizingLen (pg_bin_enc_from_base64 (fixedOutputEnc [77, 84, 73, 122])) RValue.vNil =
      Except.ok 3
    ∧ writingRun (pg_bin_enc_from_base64 (fixedOutputEnc [77, 84, 73, 122])) RValue.vNil =
        Except.ok (3, [49, 50, 51])
    ∧ [49, 50, 51].length = 3 := by
  have h := c1_amended_two_call_length_invariant.2.2.2.2.2.2
    [77, 84, 73, 122] [49, 50, 51] RValue.vNil rfl
  exact ⟨h.1, h.2.1, rfl⟩
